import Mathlib

set_option maxRecDepth 8000

/-!
Verification of the sample-manager core pipeline (normalizer, history store,
export serializer), shallowly embedded from the source of `app/login.tsx`
(second screen variant, the one the claims cite) and checked against the
natural-language specification.

JavaScript values flowing through the pipeline are modelled by `JSValue`
(JSON-decoded data: the remote payload and the persisted snapshot).  Machine
floats never matter for the verified properties, so numbers are modelled as
integers.  JS strings are Lean `String`s; `.trim()`, `String(x)` coercion,
`??`, optional chaining and `Array.prototype.join` are each given explicit
executable models below.
-/

/-- Universe of JSON-decoded JavaScript values handled by the pipeline. -/
inductive JSValue where
  | jnull
  | jundefined
  | jbool (b : Bool)
  | jnum (n : Int)
  | jstr (s : String)
  | jarr (elems : List JSValue)
  | jobj (fields : List (String × JSValue))

/-- Whitespace test used by the model of JS `String.prototype.trim`
(space, tab, line feed, carriage return). -/
def isWs (c : Char) : Bool :=
  c.toNat == 32 || c.toNat == 9 || c.toNat == 10 || c.toNat == 13

/-- Drop leading whitespace characters. -/
def dropWs : List Char → List Char
  | [] => []
  | c :: cs => if isWs c then dropWs cs else c :: cs

/-- Model of JS `trim` at the character-list level: drop leading whitespace,
then drop trailing whitespace (via reversal). -/
def trimL (l : List Char) : List Char :=
  (dropWs ((dropWs l).reverse)).reverse

/-- Model of JS `String.prototype.trim`. -/
def jsTrim (s : String) : String :=
  String.mk (trimL s.data)

/-- Decimal digit character, used to model JS number-to-string conversion. -/
def digitChar (d : Nat) : Char :=
  if d = 0 then '0' else if d = 1 then '1' else if d = 2 then '2'
  else if d = 3 then '3' else if d = 4 then '4' else if d = 5 then '5'
  else if d = 6 then '6' else if d = 7 then '7' else if d = 8 then '8' else '9'

/-- Fuel-indexed most-significant-first decimal digit list of `n`
(fuel strictly dominates the digit count, so the rendering is exact). -/
def natDigitsAux : Nat → Nat → List Char
  | 0, _ => []
  | fuel + 1, n => if n = 0 then [] else natDigitsAux fuel (n / 10) ++ [digitChar (n % 10)]

/-- Decimal digit characters of a natural number (`"0"` for zero). -/
def natChars (n : Nat) : List Char :=
  if n = 0 then ['0'] else natDigitsAux n n

/-- Model of JS `String(n)` for an integral number. -/
def intToString (i : Int) : String :=
  if i < 0 then String.mk ('-' :: natChars (-i).toNat) else String.mk (natChars i.toNat)

/-- Model of JS `Array.prototype.join(sep)` over already-rendered parts. -/
def jsJoin (sep : String) : List String → String
  | [] => ""
  | [x] => x
  | x :: xs => x ++ sep ++ jsJoin sep xs

mutual
/-- Model of JS `String(value)` coercion: strings pass through, numbers render
in decimal, `null`/`undefined` render literally, objects render as
`"[object Object]"`, and arrays render as their comma-join. -/
def jsToString : JSValue → String
  | .jnull => "null"
  | .jundefined => "undefined"
  | .jbool b => if b then "true" else "false"
  | .jnum n => intToString n
  | .jstr s => s
  | .jobj _ => "[object Object]"
  | .jarr xs => jsJoin "," (jsJoinParts xs)

/-- Array elements as rendered by `Array.prototype.join`: `null` and
`undefined` become the empty string, everything else is `String(·)`-coerced. -/
def jsJoinParts : List JSValue → List String
  | [] => []
  | v :: vs =>
    (match v with
     | .jnull => ""
     | .jundefined => ""
     | v' => jsToString v') :: jsJoinParts vs
end

/-- Nullish test (`value == null` in JS: true exactly for null/undefined). -/
def nullish : JSValue → Bool
  | .jnull => true
  | .jundefined => true
  | _ => false

/-- Model of the JS nullish-coalescing operator `a ?? b`. -/
def jsOr (a b : JSValue) : JSValue :=
  if nullish a then b else a

/-- JS truthiness on the modelled value universe. -/
def truthyJS : JSValue → Bool
  | .jnull => false
  | .jundefined => false
  | .jbool b => b
  | .jnum n => !(n == 0)
  | .jstr s => !(s == "")
  | .jarr _ => true
  | .jobj _ => true

/-- Model of optional-chained property access `v?.k`: a named property of a
non-object (primitive or array) is `undefined`, as is a missing key. -/
def jget (v : JSValue) (k : String) : JSValue :=
  match v with
  | .jobj fs =>
    match fs.find? (fun kv => kv.1 == k) with
    | some kv => kv.2
    | none => .jundefined
  | _ => .jundefined

/-- Source `valueOrDash` (login.tsx 792-799): null/undefined become `"-"`,
strings are trimmed with empty mapped to `"-"`, anything else is
`String(value)`-coerced. -/
def valueOrDash (value : JSValue) : String :=
  if nullish value then "-"
  else
    match value with
    | .jstr s => if jsTrim s = "" then "-" else jsTrim s
    | v => jsToString v

/-- Source `pickFirst` (login.tsx 801-804): unwrap an array to its first
element (`{}` when absent or nullish), leave anything else unchanged. -/
def pickFirst (value : JSValue) : JSValue :=
  match value with
  | .jarr xs => jsOr (xs.headD .jundefined) (.jobj [])
  | v => v

/-- ASCII lower-casing of one character, the model of the character action of
JS `toLowerCase` on the inputs that matter here. -/
def jsLower (c : Char) : Char :=
  match c with
  | 'A' => 'a' | 'B' => 'b' | 'C' => 'c' | 'D' => 'd' | 'E' => 'e' | 'F' => 'f'
  | 'G' => 'g' | 'H' => 'h' | 'I' => 'i' | 'J' => 'j' | 'K' => 'k' | 'L' => 'l'
  | 'M' => 'm' | 'N' => 'n' | 'O' => 'o' | 'P' => 'p' | 'Q' => 'q' | 'R' => 'r'
  | 'S' => 's' | 'T' => 't' | 'U' => 'u' | 'V' => 'v' | 'W' => 'w' | 'X' => 'x'
  | 'Y' => 'y' | 'Z' => 'z'
  | c => c

/-- ASCII upper-casing of one character (model of JS `toUpperCase`). -/
def jsUpper (c : Char) : Char :=
  match c with
  | 'a' => 'A' | 'b' => 'B' | 'c' => 'C' | 'd' => 'D' | 'e' => 'E' | 'f' => 'F'
  | 'g' => 'G' | 'h' => 'H' | 'i' => 'I' | 'j' => 'J' | 'k' => 'K' | 'l' => 'L'
  | 'm' => 'M' | 'n' => 'N' | 'o' => 'O' | 'p' => 'P' | 'q' => 'Q' | 'r' => 'R'
  | 's' => 'S' | 't' => 'T' | 'u' => 'U' | 'v' => 'V' | 'w' => 'W' | 'x' => 'X'
  | 'y' => 'Y' | 'z' => 'Z'
  | c => c

/-- Source `formatStatusLabel` (login.tsx 755-760): trim, map empty to `"-"`,
otherwise lower-case everything and re-capitalize the first character. -/
def formatStatusLabel (raw : String) : String :=
  match (jsTrim raw).data with
  | [] => "-"
  | c :: cs => String.mk (jsUpper (jsLower c) :: cs.map jsLower)

/-- Calendar date triple as observed through `getDate`/`getMonth`/`getFullYear`
(local time modelled as UTC). -/
structure SimpleDate where
  day : Nat
  month : Nat
  year : Nat

/-- Two-digit zero-padding of source `padStart(2, '0')`. -/
def pad2 (n : Nat) : List Char :=
  if n < 10 then '0' :: natChars n else natChars n

/-- The `DD-MM-YYYY` rendering produced by source `formatDate` for a valid
date. -/
def fmtSimpleDate (d : SimpleDate) : String :=
  String.mk (pad2 d.day ++ '-' :: (pad2 d.month ++ '-' :: natChars d.year))

/-- Decimal digit value of a character, if any. -/
def digitVal (c : Char) : Option Nat :=
  if 48 ≤ c.toNat ∧ c.toNat ≤ 57 then some (c.toNat - 48) else none

/-- Model of `new Date(string)` parsing restricted to the ISO
`YYYY-MM-DD[T...]` forms the upstream service emits; anything else is an
invalid date.  Local time is modelled as UTC. -/
def parseYMD : List Char → Option SimpleDate
  | y1 :: y2 :: y3 :: y4 :: '-' :: m1 :: m2 :: '-' :: d1 :: d2 :: rest =>
    match digitVal y1, digitVal y2, digitVal y3, digitVal y4,
          digitVal m1, digitVal m2, digitVal d1, digitVal d2 with
    | some a, some b, some c, some d, some e, some f, some g, some h =>
      let y := ((a * 10 + b) * 10 + c) * 10 + d
      let m := e * 10 + f
      let dd := g * 10 + h
      if (rest = [] ∨ rest.head? = some 'T') ∧
          1 ≤ m ∧ m ≤ 12 ∧ 1 ≤ dd ∧ dd ≤ 31 then
        some ⟨dd, m, y⟩
      else none
    | _, _, _, _, _, _, _, _ => none
  | _ => none

/-- Model of `new Date(·)` construction from a JS string. -/
def parseJSDate (s : String) : Option SimpleDate :=
  parseYMD s.data

/-- Source `formatDate` (login.tsx 762-779) applied to a payload value: falsy
input yields `"-"`; otherwise the value is string-coerced (the source wraps
non-strings in `new Date(String(value))`), parsed as a date, and rendered as
`DD-MM-YYYY`, with parse failure yielding `"-"`. -/
def formatDate (value : JSValue) : String :=
  if truthyJS value = false then "-"
  else
    match parseJSDate (jsToString value) with
    | none => "-"
    | some d => fmtSimpleDate d

/-- The canonical row type `AmostraRow` (login.tsx 669-680): exactly ten
string fields, in table-column order. -/
structure AmostraRow where
  amostra : String
  dataEntrega : String
  compartimento : String
  chassi : String
  cliente : String
  horasEquipamento : String
  tipoOleo : String
  status : String
  dataColeta : String
  tecnico : String
deriving DecidableEq

/-- The ten fields of a row, in `TABLE_COLUMNS` order. -/
def rowFields (r : AmostraRow) : List String :=
  [r.amostra, r.dataEntrega, r.compartimento, r.chassi, r.cliente,
   r.horasEquipamento, r.tipoOleo, r.status, r.dataColeta, r.tecnico]

/-- Source `statusSource` (login.tsx 813-817): the first of `situacao`,
`status`, `statusDescricao` that is a non-empty string, else `''`
(the `typeof x === 'string' && x` chain with `|| ''` at the end). -/
def strCandidate (v : JSValue) : Option String :=
  match v with
  | .jstr s => if s = "" then none else some s
  | _ => none

/-- The resolved status source string of a payload. -/
def statusSource (payload : JSValue) : String :=
  ((strCandidate (jget payload "situacao")).orElse fun _ =>
    (strCandidate (jget payload "status")).orElse fun _ =>
      strCandidate (jget payload "statusDescricao")).getD ""

/-- The `status` field: `statusSource ? formatStatusLabel(statusSource)
: valueOrDash(statusSource)` from the source. -/
def statusField (payload : JSValue) : String :=
  let s := statusSource payload
  if s = "" then valueOrDash (.jstr s) else formatStatusLabel s

/-- The unwrap step of `normalizeRow`: `pickFirst(data?.data ?? data)`. -/
def unwrapPayload (data : JSValue) : JSValue :=
  pickFirst (jsOr (jget data "data") data)

/-- Source `normalizeRow` (login.tsx 806-883).  `now` is the calendar date of
the `new Date()` taken during normalization.  The source's trailing
`?? '-'` after the `amostra` `valueOrDash` call can never fire
(`valueOrDash` returns a string) and is not represented. -/
def normalizeRow (now : SimpleDate) (data : JSValue) (codigo : String) : AmostraRow :=
  let payload := unwrapPayload data
  let coletaEquip := jsOr (jget (jget payload "coleta") "dadosColetaEquipamento") (.jobj [])
  let coletaCompartimento :=
    jsOr (jget coletaEquip "compartimento") (jsOr (jget payload "compartimento") (.jobj []))
  let coletaEquipamento :=
    jsOr (jget coletaEquip "equipamento") (jsOr (jget payload "equipamento") (.jobj []))
  let coletaGeral := jsOr (jget (jget payload "coleta") "dadosColetaGeral") (.jobj [])
  let oleoInfo := jsOr (jget coletaGeral "oleo") (jsOr (jget payload "oleo") (.jobj []))
  let dataColetaValue :=
    jsOr (jget coletaGeral "dataColeta")
      (jsOr (jget payload "dataColeta")
        (jsOr (jget payload "coletaEm") (jsOr (jget payload "dataColetaIso") .jnull)))
  { amostra :=
      valueOrDash
        (jsOr (jget payload "numeroAmostra")
          (jsOr (jget payload "amostra")
            (jsOr (.jstr codigo) (jsOr (jget payload "codigo") (jget payload "id"))))),
    dataEntrega := fmtSimpleDate now,
    compartimento :=
      valueOrDash
        (jsOr (jget coletaCompartimento "nome")
          (jsOr (jget payload "compartimento")
            (jsOr (jget payload "componente") (jsOr (jget payload "local") (.jstr "-"))))),
    chassi :=
      valueOrDash
        (jsOr (jget coletaEquipamento "chassiSerie")
          (jsOr (jget coletaEquipamento "chassi")
            (jsOr (jget payload "chassi")
              (jsOr (jget (jget payload "equipamento") "chassi")
                (jsOr (jget payload "equipamentoChassi")
                  (jsOr (jget payload "maquina") (.jstr "-"))))))),
    cliente :=
      valueOrDash
        (jsOr (jget payload "obra")
          (jsOr (jget (jget payload "cliente") "nome")
            (jsOr (jget coletaEquipamento "cliente")
              (jsOr (jget (jget payload "equipamento") "cliente")
                (jsOr (jget payload "clienteNome") (.jstr "-")))))),
    horasEquipamento :=
      valueOrDash
        (jsOr (jget coletaEquip "horasEquipamentoColeta")
          (jsOr (jget payload "horasEquipamento")
            (jsOr (jget (jget payload "equipamento") "horimetro")
              (jsOr (jget payload "horasMaquina")
                (jsOr (jget payload "horimetro") (.jstr "-")))))),
    tipoOleo :=
      valueOrDash
        (jsOr (jget (jget oleoInfo "viscosidade") "nome")
          (jsOr (jget (jget oleoInfo "fabricanteOleo") "nome")
            (jsOr (jget payload "tipoOleo")
              (jsOr (jget payload "oleo")
                (jsOr (jget payload "tipoLubrificante") (.jstr "-")))))),
    status := statusField payload,
    dataColeta := formatDate dataColetaValue,
    tecnico :=
      valueOrDash
        (jsOr (jget payload "responsavelRegistro")
          (jsOr (jget payload "tecnico")
            (jsOr (jget payload "tecnicoResponsavel")
              (jsOr (jget payload "responsavel") (.jstr "-"))))) }

/-- Source `HISTORY_LIMIT` (login.tsx 704). -/
def HISTORY_LIMIT : Nat := 100

/-- The upsert step of `consult` (login.tsx 1013-1017): filter out the row's
code, prepend, truncate to `HISTORY_LIMIT` (`slice(0, N)` = `take N`). -/
def upsert (prev : List AmostraRow) (row : AmostraRow) : List AmostraRow :=
  (row :: prev.filter (fun item => item.amostra != row.amostra)).take HISTORY_LIMIT

/-- History state after upserting the given rows, oldest first, starting from
the empty history. -/
def historyAfter (rows : List AmostraRow) : List AmostraRow :=
  rows.foldl upsert []

/-- Source `sanitizeStoredRow` (login.tsx 885-895): non-objects are rejected;
otherwise each of the ten fields is rebuilt through `valueOrDash` and the
candidate is rejected when its code is falsy or the placeholder. -/
def sanitizeStoredRow (value : JSValue) : Option AmostraRow :=
  match value with
  | .jobj _ | .jarr _ =>
    let a := valueOrDash (jget value "amostra")
    if a = "" ∨ a = "-" then none
    else
      some
        { amostra := a,
          dataEntrega := valueOrDash (jget value "dataEntrega"),
          compartimento := valueOrDash (jget value "compartimento"),
          chassi := valueOrDash (jget value "chassi"),
          cliente := valueOrDash (jget value "cliente"),
          horasEquipamento := valueOrDash (jget value "horasEquipamento"),
          tipoOleo := valueOrDash (jget value "tipoOleo"),
          status := valueOrDash (jget value "status"),
          dataColeta := valueOrDash (jget value "dataColeta"),
          tecnico := valueOrDash (jget value "tecnico") }
  | _ => none

/-- The load effect (login.tsx 946-972) applied to a decoded stored snapshot:
an array is mapped through `sanitizeStoredRow` with failures dropped, in
order; any other shape leaves the history empty. -/
def loadRows (stored : JSValue) : List AmostraRow :=
  match stored with
  | .jarr xs => (xs.map sanitizeStoredRow).filterMap id
  | _ => []

/-- The JSON tree `JSON.stringify` writes for one row (the persist effect,
login.tsx 992-995); `JSON.stringify` followed by `JSON.parse` is modelled as
the identity on this tree. -/
def rowToJSON (r : AmostraRow) : JSValue :=
  .jobj
    [("amostra", .jstr r.amostra), ("dataEntrega", .jstr r.dataEntrega),
     ("compartimento", .jstr r.compartimento), ("chassi", .jstr r.chassi),
     ("cliente", .jstr r.cliente), ("horasEquipamento", .jstr r.horasEquipamento),
     ("tipoOleo", .jstr r.tipoOleo), ("status", .jstr r.status),
     ("dataColeta", .jstr r.dataColeta), ("tecnico", .jstr r.tecnico)]

/-- The persisted snapshot of a history, as decoded back by `JSON.parse`. -/
def historyToStoredValue (rows : List AmostraRow) : JSValue :=
  .jarr (rows.map rowToJSON)

/-- Replacement pass of the regex `/\r?\n/g` with `' '`: a line feed, together
with an immediately preceding carriage return, becomes one space. -/
def replaceNL : List Char → List Char
  | [] => []
  | '\r' :: '\n' :: rest => ' ' :: replaceNL rest
  | '\n' :: rest => ' ' :: replaceNL rest
  | c :: rest => c :: replaceNL rest

/-- Replacement pass of the regex `/\t/g` with `' '`. -/
def replaceTabs (l : List Char) : List Char :=
  l.map fun c => if c = '\t' then ' ' else c

/-- Source `sanitizeCellValue` (login.tsx 209-211): the two regex replacements
followed by `trim`. -/
def sanitizeCellValue (raw : String) : String :=
  jsTrim (String.mk (replaceTabs (replaceNL raw.data)))

/-- Source `EXPORT_HEADERS` (login.tsx 181-192): header label and field
accessor, in export column order. -/
def EXPORT_HEADERS : List (String × (AmostraRow → String)) :=
  [("Amostra", AmostraRow.amostra), ("Data de entrega", AmostraRow.dataEntrega),
   ("Compartimento", AmostraRow.compartimento), ("Chassi", AmostraRow.chassi),
   ("Cliente", AmostraRow.cliente), ("Horas do equipamento", AmostraRow.horasEquipamento),
   ("Tipo do oleo", AmostraRow.tipoOleo), ("Status", AmostraRow.status),
   ("Data de coleta", AmostraRow.dataColeta), ("Tecnico", AmostraRow.tecnico)]

/-- The sanitized, tab-joined header line of the export text. -/
def exportHeaderLine : String :=
  jsJoin "\t" (EXPORT_HEADERS.map fun kv => sanitizeCellValue kv.1)

/-- The sanitized, tab-joined line for one row of the export text. -/
def exportRowLine (r : AmostraRow) : String :=
  jsJoin "\t" (EXPORT_HEADERS.map fun kv => sanitizeCellValue (kv.2 r))

/-- Source `buildExportText` (login.tsx 213-221): header line and row lines
joined by CRLF (`[headerLine, ...content].join(ROW_DELIMITER)`). -/
def buildExportText (rows : List AmostraRow) : String :=
  jsJoin "\r\n" (exportHeaderLine :: rows.map exportRowLine)

/-- Whether a string ends with the two-character CRLF sequence. -/
def endsWithCRLF (s : String) : Bool :=
  s.data.reverse.take 2 == ['\n', '\r']

/-- A character list neither starts nor ends with whitespace. -/
def EndsOk (l : List Char) : Prop :=
  (∀ c, l.head? = some c → isWs c = false) ∧
  (∀ c, l.reverse.head? = some c → isWs c = false)

/-- A well-formed field string: non-empty and a fixed point of trimming. -/
def GoodStr (s : String) : Prop :=
  s ≠ "" ∧ jsTrim s = s

theorem head?_eq_some_mem {l : List Char} {c : Char} (h : l.head? = some c) : c ∈ l := by
  cases l with
  | nil => simp at h
  | cons a t => simp at h; simp [h]

theorem dropWs_head_not_ws : ∀ (l : List Char) (c : Char),
    (dropWs l).head? = some c → isWs c = false := by
  intro l
  induction l with
  | nil => intro c h; simp [dropWs] at h
  | cons a t ih =>
    intro c h
    by_cases ha : isWs a
    · rw [dropWs, if_pos ha] at h; exact ih c h
    · rw [dropWs, if_neg ha] at h
      simp at h
      simpa [← h] using ha

theorem dropWs_eq_self {l : List Char}
    (h : ∀ c, l.head? = some c → isWs c = false) : dropWs l = l := by
  cases l with
  | nil => rfl
  | cons a t =>
    have := h a (by simp)
    simp [dropWs, this]

theorem dropWs_exists_prefix (l : List Char) : ∃ w, l = w ++ dropWs l := by
  induction l with
  | nil => exact ⟨[], rfl⟩
  | cons a t ih =>
    by_cases ha : isWs a
    · obtain ⟨w, hw⟩ := ih
      exact ⟨a :: w, by simp [dropWs, ha]; exact hw⟩
    · exact ⟨[], by simp [dropWs, ha]⟩

theorem head?_append_left {α : Type} {l t : List α} (h : l ≠ []) :
    (l ++ t).head? = l.head? := by
  cases l with
  | nil => exact absurd rfl h
  | cons a s => rfl

theorem trimL_endsOk (l : List Char) : EndsOk (trimL l) := by
  constructor
  · intro c hc
    rw [trimL] at hc
    set X := dropWs ((dropWs l).reverse) with hX
    rcases hx : X with _ | ⟨a, t⟩
    · simp [hx] at hc
    · have hne : X ≠ [] := by simp [hx]
      obtain ⟨w, hw⟩ := dropWs_exists_prefix ((dropWs l).reverse)
      have hrev : (dropWs l).reverse = w ++ X := by rw [hw]
      have h1 : ((dropWs l).reverse).reverse.head? = (X.reverse ++ w.reverse).head? := by
        rw [hrev]; simp
      have h2 : (X.reverse ++ w.reverse).head? = X.reverse.head? :=
        head?_append_left (by simpa using hne)
      have h3 : (dropWs l).head? = X.reverse.head? := by
        simpa using h1.trans h2
      have : (dropWs l).head? = some c := by rw [h3]; exact hc
      exact dropWs_head_not_ws l c this
  · intro c hc
    rw [trimL] at hc
    simp only [List.reverse_reverse] at hc
    exact dropWs_head_not_ws _ c hc

theorem trimL_eq_self {l : List Char} (h : EndsOk l) : trimL l = l := by
  obtain ⟨h1, h2⟩ := h
  rw [trimL, dropWs_eq_self h1, dropWs_eq_self h2, List.reverse_reverse]

theorem trimL_idem (l : List Char) : trimL (trimL l) = trimL l :=
  trimL_eq_self (trimL_endsOk l)

theorem endsOk_of_all_not_ws {l : List Char}
    (h : ∀ c ∈ l, isWs c = false) : EndsOk l := by
  constructor
  · intro c hc; exact h c (head?_eq_some_mem hc)
  · intro c hc
    have := head?_eq_some_mem hc
    exact h c (by simpa using this)

theorem trimL_eq_self_of_all {l : List Char}
    (h : ∀ c ∈ l, isWs c = false) : trimL l = l :=
  trimL_eq_self (endsOk_of_all_not_ws h)

theorem jsTrim_idem (s : String) : jsTrim (jsTrim s) = jsTrim s := by
  cases s with
  | mk data => simp [jsTrim, trimL_idem]

theorem str_ne_empty_of_data {s : String} (h : s.data ≠ []) : s ≠ "" := by
  intro he
  subst he
  exact h rfl

theorem digitChar_range (d : Nat) :
    48 ≤ (digitChar d).toNat ∧ (digitChar d).toNat ≤ 57 := by
  unfold digitChar
  repeat' split
  all_goals decide

theorem natDigitsAux_range : ∀ (fuel n : Nat), ∀ c ∈ natDigitsAux fuel n,
    48 ≤ c.toNat ∧ c.toNat ≤ 57 := by
  intro fuel
  induction fuel with
  | zero => intro n c hc; simp [natDigitsAux] at hc
  | succ f ih =>
    intro n c hc
    rw [natDigitsAux] at hc
    by_cases hn : n = 0
    · simp [hn] at hc
    · rw [if_neg hn] at hc
      rcases List.mem_append.mp hc with h | h
      · exact ih _ c h
      · simp at h
        subst h
        exact digitChar_range _

theorem natChars_range : ∀ (n : Nat), ∀ c ∈ natChars n,
    48 ≤ c.toNat ∧ c.toNat ≤ 57 := by
  intro n c hc
  rw [natChars] at hc
  by_cases hn : n = 0
  · simp [hn] at hc; subst hc; decide
  · rw [if_neg hn] at hc
    exact natDigitsAux_range n n c hc

theorem not_ws_of_digit {c : Char} (h : 48 ≤ c.toNat ∧ c.toNat ≤ 57) :
    isWs c = false := by
  rw [isWs]
  obtain ⟨h1, _⟩ := h
  simp only [Bool.or_eq_false_iff, beq_eq_false_iff_ne]
  omega

theorem natChars_ne_nil (n : Nat) : natChars n ≠ [] := by
  rw [natChars]
  by_cases hn : n = 0
  · simp [hn]
  · rw [if_neg hn]
    rcases n with _ | m
    · exact absurd rfl hn
    · rw [natDigitsAux, if_neg hn]
      simp

theorem goodStr_of_endsOk {l : List Char} (hne : l ≠ []) (h : EndsOk l) :
    GoodStr (String.mk l) := by
  refine ⟨str_ne_empty_of_data hne, ?_⟩
  show String.mk (trimL l) = String.mk l
  rw [trimL_eq_self h]

theorem goodStr_of_all {l : List Char} (hne : l ≠ [])
    (h : ∀ c ∈ l, isWs c = false) : GoodStr (String.mk l) :=
  goodStr_of_endsOk hne (endsOk_of_all_not_ws h)

theorem goodStr_intToString (i : Int) : GoodStr (intToString i) := by
  rw [intToString]
  by_cases h : i < 0
  · rw [if_pos h]
    refine goodStr_of_all (by simp) ?_
    intro c hc
    rcases List.mem_cons.mp hc with h1 | h1
    · subst h1; decide
    · exact not_ws_of_digit (natChars_range _ c h1)
  · rw [if_neg h]
    exact goodStr_of_all (natChars_ne_nil _)
      (fun c hc => not_ws_of_digit (natChars_range _ c hc))

theorem pad2_range (n : Nat) : ∀ c ∈ pad2 n, 48 ≤ c.toNat ∧ c.toNat ≤ 57 := by
  intro c hc
  rw [pad2] at hc
  by_cases h : n < 10
  · rw [if_pos h] at hc
    rcases List.mem_cons.mp hc with h1 | h1
    · subst h1; decide
    · exact natChars_range _ c h1
  · rw [if_neg h] at hc
    exact natChars_range _ c hc

theorem goodStr_fmtSimpleDate (d : SimpleDate) : GoodStr (fmtSimpleDate d) := by
  rw [fmtSimpleDate]
  refine goodStr_of_all (by simp) ?_
  intro c hc
  rcases List.mem_append.mp hc with h1 | h1
  · exact not_ws_of_digit (pad2_range _ c h1)
  · rcases List.mem_cons.mp h1 with h2 | h2
    · subst h2; decide
    · rcases List.mem_append.mp h2 with h3 | h3
      · exact not_ws_of_digit (pad2_range _ c h3)
      · rcases List.mem_cons.mp h3 with h4 | h4
        · subst h4; decide
        · exact not_ws_of_digit (natChars_range _ c h4)

theorem goodStr_formatDate (v : JSValue) : GoodStr (formatDate v) := by
  rw [formatDate]
  by_cases h : truthyJS v = false
  · rw [if_pos h]; exact ⟨by decide, by decide⟩
  · rw [if_neg h]
    rcases parseJSDate (jsToString v) with _ | d
    · exact ⟨by decide, by decide⟩
    · exact goodStr_fmtSimpleDate d

theorem isWs_jsLower (c : Char) : isWs (jsLower c) = isWs c := by
  unfold jsLower
  split <;> rfl

theorem isWs_jsUpper (c : Char) : isWs (jsUpper c) = isWs c := by
  unfold jsUpper
  split <;> rfl

theorem goodStr_formatStatusLabel (raw : String) : GoodStr (formatStatusLabel raw) := by
  rw [formatStatusLabel]
  rcases h : (jsTrim raw).data with _ | ⟨c, cs⟩
  · exact ⟨by decide, by decide⟩
  · have hends : EndsOk (c :: cs) := by
      rw [show (jsTrim raw).data = trimL raw.data from rfl] at h
      rw [← h]
      exact trimL_endsOk raw.data
    refine goodStr_of_endsOk (by simp) ⟨?_, ?_⟩
    · intro c' hc'
      simp at hc'
      subst hc'
      rw [isWs_jsUpper, isWs_jsLower]
      exact hends.1 c (by simp)
    · intro c' hc'
      rcases hcs : cs with _ | ⟨a, t⟩
      · subst hcs
        simp at hc'
        subst hc'
        rw [isWs_jsUpper, isWs_jsLower]
        exact hends.1 c (by simp)
      · rw [List.reverse_cons, ← List.map_reverse] at hc'
        rw [head?_append_left (by simp [hcs]), List.head?_map] at hc'
        rcases h3 : cs.reverse.head? with _ | b0
        · rw [h3] at hc'; simp at hc'
        · rw [h3] at hc'
          simp at hc'
          have hlast : (c :: cs).reverse.head? = some b0 := by
            rw [List.reverse_cons, head?_append_left (by simp [hcs])]
            exact h3
          subst hc'
          rw [isWs_jsLower]
          exact hends.2 b0 hlast

/-- Payload trees containing no JS array anywhere.  Array values are the one
shape `String(·)` coercion can turn into an empty or untrimmed string. -/
inductive ArrayFree : JSValue → Prop
  | jnull : ArrayFree .jnull
  | jundefined : ArrayFree .jundefined
  | jbool (b : Bool) : ArrayFree (.jbool b)
  | jnum (n : Int) : ArrayFree (.jnum n)
  | jstr (s : String) : ArrayFree (.jstr s)
  | jobj (fs : List (String × JSValue)) :
      (∀ kv ∈ fs, ArrayFree kv.2) → ArrayFree (.jobj fs)

theorem ArrayFree.not_arr {v : JSValue} (h : ArrayFree v) :
    ∀ xs, v ≠ .jarr xs := by
  cases h <;> intro xs <;> intro hc <;> exact JSValue.noConfusion hc

theorem ArrayFree.jget_pres {v : JSValue} (h : ArrayFree v) (k : String) :
    ArrayFree (jget v k) := by
  cases h with
  | jobj fs hfs =>
    rcases hf : fs.find? (fun kv => kv.1 == k) with _ | kv
    · rw [jget, hf]; exact ArrayFree.jundefined
    · rw [jget, hf]; exact hfs kv (List.mem_of_find?_eq_some hf)
  | _ => exact ArrayFree.jundefined

theorem ArrayFree.jsOr_pres {a b : JSValue} (ha : ArrayFree a) (hb : ArrayFree b) :
    ArrayFree (jsOr a b) := by
  rw [jsOr]
  by_cases h : nullish a = true
  · rw [if_pos h]; exact hb
  · rw [if_neg h]; exact ha

theorem ArrayFree.pickFirst_pres {v : JSValue} (h : ArrayFree v) :
    ArrayFree (pickFirst v) := by
  cases h with
  | jnull => exact ArrayFree.jnull
  | jundefined => exact ArrayFree.jundefined
  | jbool b => exact ArrayFree.jbool b
  | jnum n => exact ArrayFree.jnum n
  | jstr s => exact ArrayFree.jstr s
  | jobj fs hfs => exact ArrayFree.jobj fs hfs

theorem ArrayFree.unwrap_pres {v : JSValue} (h : ArrayFree v) :
    ArrayFree (unwrapPayload v) :=
  ((h.jget_pres "data").jsOr_pres h).pickFirst_pres

theorem goodStr_statusField (p : JSValue) : GoodStr (statusField p) := by
  simp only [statusField]
  by_cases h : statusSource p = ""
  · rw [if_pos h, h]
    exact ⟨by decide, by decide⟩
  · rw [if_neg h]
    exact goodStr_formatStatusLabel _

theorem goodStr_valueOrDash (v : JSValue) (hv : ∀ xs, v ≠ .jarr xs) :
    GoodStr (valueOrDash v) := by
  cases v with
  | jnull => exact ⟨by decide, by decide⟩
  | jundefined => exact ⟨by decide, by decide⟩
  | jbool b => cases b <;> exact ⟨by decide, by decide⟩
  | jnum n =>
    show GoodStr (intToString n)
    exact goodStr_intToString n
  | jstr s =>
    show GoodStr (if jsTrim s = "" then "-" else jsTrim s)
    by_cases h : jsTrim s = ""
    · rw [if_pos h]; exact ⟨by decide, by decide⟩
    · rw [if_neg h]; exact ⟨h, jsTrim_idem s⟩
  | jobj fs =>
    show GoodStr "[object Object]"
    exact ⟨by decide, by decide⟩
  | jarr xs => exact absurd rfl (hv xs)

theorem goodStr_row_of_arrayFree (now : SimpleDate) (data : JSValue) (codigo : String)
    (h : ArrayFree data) :
    ∀ s ∈ rowFields (normalizeRow now data codigo), GoodStr s := by
  have hp : ArrayFree (unwrapPayload data) := h.unwrap_pres
  have hobj : ArrayFree (.jobj []) := ArrayFree.jobj [] (by simp)
  have hk : ∀ k, ArrayFree (jget (unwrapPayload data) k) := fun k => hp.jget_pres k
  have hCE : ArrayFree
      (jsOr (jget (jget (unwrapPayload data) "coleta") "dadosColetaEquipamento") (.jobj [])) :=
    (((hk "coleta").jget_pres "dadosColetaEquipamento").jsOr_pres hobj)
  have hCC : ArrayFree
      (jsOr (jget (jsOr (jget (jget (unwrapPayload data) "coleta") "dadosColetaEquipamento")
          (.jobj [])) "compartimento")
        (jsOr (jget (unwrapPayload data) "compartimento") (.jobj []))) :=
    (hCE.jget_pres "compartimento").jsOr_pres ((hk "compartimento").jsOr_pres hobj)
  have hEQ : ArrayFree
      (jsOr (jget (jsOr (jget (jget (unwrapPayload data) "coleta") "dadosColetaEquipamento")
          (.jobj [])) "equipamento")
        (jsOr (jget (unwrapPayload data) "equipamento") (.jobj []))) :=
    (hCE.jget_pres "equipamento").jsOr_pres ((hk "equipamento").jsOr_pres hobj)
  have hCG : ArrayFree
      (jsOr (jget (jget (unwrapPayload data) "coleta") "dadosColetaGeral") (.jobj [])) :=
    (((hk "coleta").jget_pres "dadosColetaGeral").jsOr_pres hobj)
  have hOI : ArrayFree
      (jsOr (jget (jsOr (jget (jget (unwrapPayload data) "coleta") "dadosColetaGeral")
          (.jobj [])) "oleo")
        (jsOr (jget (unwrapPayload data) "oleo") (.jobj []))) :=
    (hCG.jget_pres "oleo").jsOr_pres ((hk "oleo").jsOr_pres hobj)
  intro s hs
  simp only [rowFields, List.mem_cons, List.not_mem_nil, or_false] at hs
  rcases hs with rfl | rfl | rfl | rfl | rfl | rfl | rfl | rfl | rfl | rfl
  · exact goodStr_valueOrDash _
      (((hk "numeroAmostra").jsOr_pres ((hk "amostra").jsOr_pres
        ((ArrayFree.jstr codigo).jsOr_pres
          ((hk "codigo").jsOr_pres (hk "id"))))).not_arr)
  · exact goodStr_fmtSimpleDate now
  · exact goodStr_valueOrDash _
      (((hCC.jget_pres "nome").jsOr_pres ((hk "compartimento").jsOr_pres
        ((hk "componente").jsOr_pres
          ((hk "local").jsOr_pres (ArrayFree.jstr "-"))))).not_arr)
  · exact goodStr_valueOrDash _
      (((hEQ.jget_pres "chassiSerie").jsOr_pres ((hEQ.jget_pres "chassi").jsOr_pres
        ((hk "chassi").jsOr_pres (((hk "equipamento").jget_pres "chassi").jsOr_pres
          ((hk "equipamentoChassi").jsOr_pres
            ((hk "maquina").jsOr_pres (ArrayFree.jstr "-"))))))).not_arr)
  · exact goodStr_valueOrDash _
      (((hk "obra").jsOr_pres (((hk "cliente").jget_pres "nome").jsOr_pres
        ((hEQ.jget_pres "cliente").jsOr_pres
          (((hk "equipamento").jget_pres "cliente").jsOr_pres
            ((hk "clienteNome").jsOr_pres (ArrayFree.jstr "-")))))).not_arr)
  · exact goodStr_valueOrDash _
      (((hCE.jget_pres "horasEquipamentoColeta").jsOr_pres
        ((hk "horasEquipamento").jsOr_pres
          (((hk "equipamento").jget_pres "horimetro").jsOr_pres
            ((hk "horasMaquina").jsOr_pres
              ((hk "horimetro").jsOr_pres (ArrayFree.jstr "-")))))).not_arr)
  · exact goodStr_valueOrDash _
      ((((hOI.jget_pres "viscosidade").jget_pres "nome").jsOr_pres
        (((hOI.jget_pres "fabricanteOleo").jget_pres "nome").jsOr_pres
          ((hk "tipoOleo").jsOr_pres
            ((hk "oleo").jsOr_pres
              ((hk "tipoLubrificante").jsOr_pres (ArrayFree.jstr "-")))))).not_arr)
  · exact goodStr_statusField _
  · exact goodStr_formatDate _
  · exact goodStr_valueOrDash _
      (((hk "responsavelRegistro").jsOr_pres ((hk "tecnico").jsOr_pres
        ((hk "tecnicoResponsavel").jsOr_pres
          ((hk "responsavel").jsOr_pres (ArrayFree.jstr "-"))))).not_arr)

/-- Claim C1: `normalizeRow` is total — for every payload (including null, an
empty object, an array, or a deeply nested unrelated object) and every queried
code it returns a row of exactly ten fields, each a (non-null) string.
Totality and stringness are carried by the type `AmostraRow`: `normalizeRow`
is a total Lean function into a structure of ten `String` fields, and this
theorem records the ten-field shape. -/
theorem normalizeRow_total_ten_fields (now : SimpleDate) (data : JSValue)
    (codigo : String) :
    (rowFields (normalizeRow now data codigo)).length = 10 := rfl

/-- Claim C2, counterexample: a payload whose `tecnico` is the empty JS array
yields `String([]) = ""`, an empty `tecnico` field — so it is not true that
every field of every normalized row is a non-empty trimmed string. -/
theorem normalizeRow_nonempty_cex :
    ¬ (∀ s ∈ rowFields
          (normalizeRow ⟨11, 10, 2026⟩ (.jobj [("tecnico", .jarr [])]) "T1"),
        s ≠ "" ∧ jsTrim s = s) := by
  intro h
  exact (h "" (by decide)).1 rfl

/-- Claim C2 (amended): for every payload containing no JS array value, every
one of the ten fields of the normalized row is a non-empty, whitespace-trimmed
string (absent data being represented by the placeholder `"-"`); an array
value can be `String(·)`-coerced to an empty or untrimmed field. -/
theorem normalizeRow_fields_nonempty_trimmed (now : SimpleDate) (data : JSValue)
    (codigo : String) (h : ArrayFree data) :
    ∀ s ∈ rowFields (normalizeRow now data codigo), s ≠ "" ∧ jsTrim s = s :=
  fun s hs => goodStr_row_of_arrayFree now data codigo h s hs

/-- Witness for the amended C2 theorem at the concrete payload `null`. -/
theorem normalizeRow_fields_nonempty_trimmed_witness :
    ArrayFree .jnull ∧
    ((normalizeRow ⟨11, 10, 2026⟩ .jnull "A7").tecnico ≠ "" ∧
      jsTrim ((normalizeRow ⟨11, 10, 2026⟩ .jnull "A7").tecnico) =
        (normalizeRow ⟨11, 10, 2026⟩ .jnull "A7").tecnico) :=
  ⟨ArrayFree.jnull,
   normalizeRow_fields_nonempty_trimmed ⟨11, 10, 2026⟩ .jnull "A7" ArrayFree.jnull
     ((normalizeRow ⟨11, 10, 2026⟩ .jnull "A7").tecnico) (by decide)⟩

/-- Claim C6, counterexample: the payload carries an internal `codigo` field
`"INTERNAL"` and no `numeroAmostra`/`amostra`, yet the row's code is the
externally queried `"Q1"` — the internal `codigo` (and `id`) fields are NOT
preferred over the queried code, because they sit after `codigo` in the
`??` chain. -/
theorem codigo_preference_cex :
    jget (unwrapPayload (.jobj [("codigo", .jstr "INTERNAL")])) "codigo"
        = .jstr "INTERNAL" ∧
    (normalizeRow ⟨11, 10, 2026⟩ (.jobj [("codigo", .jstr "INTERNAL")]) "Q1").amostra
        = "Q1" ∧
    "Q1" ≠ "INTERNAL" :=
  ⟨rfl, by decide, by decide⟩

/-- Claim C6 (amended): the code field prefers the payload's `numeroAmostra`,
then `amostra`, and otherwise falls back to the queried code; the payload's
`codigo` and `id` fields, listed after the queried code in the source's
fallback chain, are never consulted (the queried code is always a non-nullish
string), so the chain truncates at the queried code. -/
theorem amostra_resolution (now : SimpleDate) (data : JSValue) (codigo : String) :
    (normalizeRow now data codigo).amostra =
      valueOrDash
        (jsOr (jget (unwrapPayload data) "numeroAmostra")
          (jsOr (jget (unwrapPayload data) "amostra") (.jstr codigo))) := rfl

/-- Claim C7, counterexample: the payload's `dataEntrega` candidate resolves
to `"2030-05-20"`, yet the normalized delivery date is the formatted current
date `"11-10-2026"` — the payload value is not used. -/
theorem dataEntrega_cex :
    (normalizeRow ⟨11, 10, 2026⟩
        (.jobj [("dataEntrega", .jstr "2030-05-20")]) "C1").dataEntrega
      = "11-10-2026" ∧
    jget (unwrapPayload (.jobj [("dataEntrega", .jstr "2030-05-20")])) "dataEntrega"
      = .jstr "2030-05-20" ∧
    "11-10-2026" ≠ "20-05-2030" ∧ "11-10-2026" ≠ "2030-05-20" :=
  ⟨by decide, rfl, by decide, by decide⟩

/-- Claim C7 (amended): the delivery-date field always carries the formatted
current date; the candidate paths the first screen variant consulted are
ignored entirely by the authoritative `normalizeRow`. -/
theorem dataEntrega_always_current (now : SimpleDate) (data : JSValue)
    (codigo : String) :
    (normalizeRow now data codigo).dataEntrega = fmtSimpleDate now := rfl

/-- A sample row whose fields are mostly placeholders. -/
def rowA1 : AmostraRow :=
  ⟨"A1", "-", "-", "-", "-", "-", "-", "Aguardando", "-", "-"⟩

/-- A second sample row sharing `rowA1`'s code with different content. -/
def rowA1v2 : AmostraRow :=
  ⟨"A1", "02-01-2026", "Motor", "CH-9", "Obra X", "1200", "15W40", "Coletada",
   "01-01-2026", "Ana"⟩

theorem upsert_head (prev : List AmostraRow) (row : AmostraRow) :
    (upsert prev row).head? = some row := rfl

theorem upsert_countP_self (prev : List AmostraRow) (row : AmostraRow) :
    (upsert prev row).countP (fun r => r.amostra == row.amostra) = 1 := by
  rw [upsert, show HISTORY_LIMIT = 99 + 1 from rfl, List.take_succ_cons,
    List.countP_cons]
  have h0 : (List.take 99 (prev.filter fun item => item.amostra != row.amostra)).countP
      (fun r => r.amostra == row.amostra) = 0 := by
    rw [List.countP_eq_zero]
    intro r hr
    have hmem := List.mem_of_mem_take hr
    have := (List.mem_filter.mp hmem).2
    simpa using this
  rw [h0]
  simp

/-- Claim C3: after upserting `rowA` and then `rowA'` with the same code, the
history holds `rowA'` in first position and exactly one entry carrying that
code. -/
theorem upsert_dedup (h : List AmostraRow) (a a' : AmostraRow)
    (hc : a.amostra = a'.amostra) :
    (upsert (upsert h a) a').head? = some a' ∧
    (upsert (upsert h a) a').countP (fun r => r.amostra == a.amostra) = 1 := by
  refine ⟨upsert_head _ _, ?_⟩
  rw [hc]
  exact upsert_countP_self _ _

/-- Witness for the C3 theorem at two concrete same-code rows over the empty
history. -/
theorem upsert_dedup_witness :
    rowA1.amostra = rowA1v2.amostra ∧
    ((upsert (upsert [] rowA1) rowA1v2).head? = some rowA1v2 ∧
      (upsert (upsert [] rowA1) rowA1v2).countP
        (fun r => r.amostra == rowA1.amostra) = 1) :=
  ⟨rfl, upsert_dedup [] rowA1 rowA1v2 rfl⟩

theorem take_append_take {α : Type} (u v : List α) (n : Nat) :
    (u ++ v.take n).take n = (u ++ v).take n := by
  rw [List.take_append_eq_append_take, List.take_append_eq_append_take,
    List.take_take, Nat.min_eq_left (by omega)]

theorem foldl_upsert_distinct : ∀ (rows acc : List AmostraRow),
    acc.length ≤ HISTORY_LIMIT →
    (∀ r ∈ rows, ∀ x ∈ acc, r.amostra ≠ x.amostra) →
    rows.Pairwise (fun a b => a.amostra ≠ b.amostra) →
    rows.foldl upsert acc = (rows.reverse ++ acc).take HISTORY_LIMIT := by
  intro rows
  induction rows with
  | nil =>
    intro acc hlen _ _
    simp [List.take_of_length_le hlen]
  | cons r rs ih =>
    intro acc hlen hsep hdist
    have hfilter : acc.filter (fun item => item.amostra != r.amostra) = acc := by
      rw [List.filter_eq_self]
      intro x hx
      simpa using (hsep r (by simp) x hx).symm
    have hstep : upsert acc r = (r :: acc).take HISTORY_LIMIT := by
      rw [upsert, hfilter]
    rw [List.foldl_cons, hstep]
    have hlen2 : ((r :: acc).take HISTORY_LIMIT).length ≤ HISTORY_LIMIT := by
      rw [List.length_take]
      omega
    have hsep2 : ∀ q ∈ rs, ∀ x ∈ (r :: acc).take HISTORY_LIMIT,
        q.amostra ≠ x.amostra := by
      intro q hq x hx
      rcases List.mem_cons.mp (List.mem_of_mem_take hx) with h1 | h1
      · subst h1
        exact fun he => ((List.pairwise_cons.mp hdist).1 q hq) he.symm
      · exact hsep q (by simp [hq]) x h1
    have hdist2 := (List.pairwise_cons.mp hdist).2
    rw [ih _ hlen2 hsep2 hdist2, take_append_take, List.reverse_cons,
      List.append_assoc, List.singleton_append]

/-- Claim C4: upserting `HISTORY_LIMIT + 1` rows with pairwise distinct codes
into the empty history leaves exactly `HISTORY_LIMIT` entries, in
most-recently-inserted-first order, and the first-inserted row is evicted. -/
theorem bounded_eviction (rows : List AmostraRow)
    (hlen : rows.length = HISTORY_LIMIT + 1)
    (hdist : rows.Pairwise (fun a b => a.amostra ≠ b.amostra)) :
    historyAfter rows = rows.reverse.take HISTORY_LIMIT ∧
    (historyAfter rows).length = HISTORY_LIMIT ∧
    ∀ r0, rows.head? = some r0 → r0 ∉ historyAfter rows := by
  have hmain : historyAfter rows = rows.reverse.take HISTORY_LIMIT := by
    rw [historyAfter,
      foldl_upsert_distinct rows [] (by simp [HISTORY_LIMIT]) (by simp) hdist,
      List.append_nil]
  refine ⟨hmain, ?_, ?_⟩
  · rw [hmain, List.length_take, List.length_reverse, hlen]
    omega
  · intro r0 h0
    rcases rows with _ | ⟨r, rs⟩
    · simp at h0
    · simp only [List.head?_cons, Option.some.injEq] at h0
      subst h0
      rw [hmain, List.reverse_cons]
      have hrs : rs.reverse.length = HISTORY_LIMIT := by
        simp only [List.length_cons] at hlen
        simp
        omega
      rw [List.take_append_eq_append_take, hrs, Nat.sub_self, List.take_zero,
        List.append_nil, List.take_of_length_le (by omega)]
      intro hmem
      have hmem2 : r ∈ rs := by simpa using hmem
      exact (List.pairwise_cons.mp hdist).1 r hmem2 rfl

/-- Rows with pairwise distinct codes of the form `"a"`, `"aa"`, ... used for
the bounded-eviction witness. -/
def mkCodeRow (i : Nat) : AmostraRow :=
  ⟨String.mk (List.replicate (i + 1) 'a'), "-", "-", "-", "-", "-", "-", "-",
   "-", "-"⟩

theorem mkCodeRow_ne {i j : Nat} (h : i ≠ j) :
    (mkCodeRow i).amostra ≠ (mkCodeRow j).amostra := by
  intro he
  have hd : List.replicate (i + 1) 'a' = List.replicate (j + 1) 'a' :=
    congrArg String.data he
  have := congrArg List.length hd
  simp at this
  exact h this

/-- Witness for the C4 theorem: 101 concrete rows with distinct codes. -/
theorem bounded_eviction_witness :
    ((List.range 101).map mkCodeRow).length = HISTORY_LIMIT + 1 ∧
    ((List.range 101).map mkCodeRow).Pairwise
      (fun a b => a.amostra ≠ b.amostra) ∧
    historyAfter ((List.range 101).map mkCodeRow) =
      ((List.range 101).map mkCodeRow).reverse.take HISTORY_LIMIT := by
  have h1 : ((List.range 101).map mkCodeRow).length = HISTORY_LIMIT + 1 := by
    simp [HISTORY_LIMIT]
  have h2 : ((List.range 101).map mkCodeRow).Pairwise
      (fun a b => a.amostra ≠ b.amostra) := by
    rw [List.pairwise_map]
    exact (List.pairwise_lt_range 101).imp fun hij => mkCodeRow_ne (Nat.ne_of_lt hij)
  exact ⟨h1, h2, (bounded_eviction _ h1 h2).1⟩

/-- A valid canonical row in the sense of the spec: every field non-empty and
trimmed, and the code distinct from the placeholder. -/
def ValidRow (r : AmostraRow) : Prop :=
  (∀ s ∈ rowFields r, s ≠ "" ∧ jsTrim s = s) ∧ r.amostra ≠ "-"

theorem valueOrDash_id {s : String} (h1 : s ≠ "") (h2 : jsTrim s = s) :
    valueOrDash (.jstr s) = s := by
  show (if jsTrim s = "" then "-" else jsTrim s) = s
  rw [h2, if_neg h1]

theorem sanitize_rowToJSON {r : AmostraRow} (h : ValidRow r) :
    sanitizeStoredRow (rowToJSON r) = some r := by
  obtain ⟨hf, hcode⟩ := h
  have g : ∀ s ∈ rowFields r, valueOrDash (.jstr s) = s := fun s hs =>
    valueOrDash_id (hf s hs).1 (hf s hs).2
  have hne : ¬ (valueOrDash (.jstr r.amostra) = "" ∨
      valueOrDash (.jstr r.amostra) = "-") := by
    rw [g r.amostra (by simp [rowFields])]
    rintro (h1 | h1)
    · exact (hf r.amostra (by simp [rowFields])).1 h1
    · exact hcode h1
  show (if valueOrDash (.jstr r.amostra) = "" ∨ valueOrDash (.jstr r.amostra) = "-"
      then none
      else some
        { amostra := valueOrDash (.jstr r.amostra),
          dataEntrega := valueOrDash (.jstr r.dataEntrega),
          compartimento := valueOrDash (.jstr r.compartimento),
          chassi := valueOrDash (.jstr r.chassi),
          cliente := valueOrDash (.jstr r.cliente),
          horasEquipamento := valueOrDash (.jstr r.horasEquipamento),
          tipoOleo := valueOrDash (.jstr r.tipoOleo),
          status := valueOrDash (.jstr r.status),
          dataColeta := valueOrDash (.jstr r.dataColeta),
          tecnico := valueOrDash (.jstr r.tecnico) }) = some r
  rw [if_neg hne]
  rw [g r.amostra (by simp [rowFields]), g r.dataEntrega (by simp [rowFields]),
    g r.compartimento (by simp [rowFields]), g r.chassi (by simp [rowFields]),
    g r.cliente (by simp [rowFields]), g r.horasEquipamento (by simp [rowFields]),
    g r.tipoOleo (by simp [rowFields]), g r.status (by simp [rowFields]),
    g r.dataColeta (by simp [rowFields]), g r.tecnico (by simp [rowFields])]

theorem loadRows_stored {rows : List AmostraRow} (hv : ∀ r ∈ rows, ValidRow r) :
    loadRows (historyToStoredValue rows) = rows := by
  show ((rows.map rowToJSON).map sanitizeStoredRow).filterMap id = rows
  induction rows with
  | nil => rfl
  | cons r rs ih =>
    rw [List.map_cons, List.map_cons, List.filterMap_cons,
      sanitize_rowToJSON (hv r (by simp)), ih fun x hx => hv x (by simp [hx])]
    rfl

theorem sanitize_missing_code (v : JSValue)
    (h : jget v "amostra" = .jundefined ∨ jget v "amostra" = .jstr "-") :
    sanitizeStoredRow v = none := by
  have hdash : valueOrDash (jget v "amostra") = "-" := by
    rcases h with h | h <;> rw [h] <;> decide
  cases v with
  | jobj fs =>
    show (if valueOrDash (jget (.jobj fs) "amostra") = "" ∨
        valueOrDash (jget (.jobj fs) "amostra") = "-" then (none : Option AmostraRow)
      else some
        { amostra := valueOrDash (jget (.jobj fs) "amostra"),
          dataEntrega := valueOrDash (jget (.jobj fs) "dataEntrega"),
          compartimento := valueOrDash (jget (.jobj fs) "compartimento"),
          chassi := valueOrDash (jget (.jobj fs) "chassi"),
          cliente := valueOrDash (jget (.jobj fs) "cliente"),
          horasEquipamento := valueOrDash (jget (.jobj fs) "horasEquipamento"),
          tipoOleo := valueOrDash (jget (.jobj fs) "tipoOleo"),
          status := valueOrDash (jget (.jobj fs) "status"),
          dataColeta := valueOrDash (jget (.jobj fs) "dataColeta"),
          tecnico := valueOrDash (jget (.jobj fs) "tecnico") }) = none
    rw [if_pos (Or.inr hdash)]
  | jarr xs =>
    show (if valueOrDash (jget (.jarr xs) "amostra") = "" ∨
        valueOrDash (jget (.jarr xs) "amostra") = "-" then (none : Option AmostraRow)
      else some
        { amostra := valueOrDash (jget (.jarr xs) "amostra"),
          dataEntrega := valueOrDash (jget (.jarr xs) "dataEntrega"),
          compartimento := valueOrDash (jget (.jarr xs) "compartimento"),
          chassi := valueOrDash (jget (.jarr xs) "chassi"),
          cliente := valueOrDash (jget (.jarr xs) "cliente"),
          horasEquipamento := valueOrDash (jget (.jarr xs) "horasEquipamento"),
          tipoOleo := valueOrDash (jget (.jarr xs) "tipoOleo"),
          status := valueOrDash (jget (.jarr xs) "status"),
          dataColeta := valueOrDash (jget (.jarr xs) "dataColeta"),
          tecnico := valueOrDash (jget (.jarr xs) "tecnico") }) = none
    rw [if_pos (Or.inr hdash)]
  | jnull => rfl
  | jundefined => rfl
  | jbool b => rfl
  | jnum n => rfl
  | jstr s => rfl

/-- Claim C5: persisting a sequence of valid rows and reloading it through
`JSON.parse` plus per-entry `sanitizeStoredRow` reproduces an equal ordered
sequence, and any stored entry whose code is missing or equal to the
placeholder is dropped on reload. -/
theorem persist_load_roundtrip (rows : List AmostraRow)
    (hv : ∀ r ∈ rows, ValidRow r) :
    loadRows (historyToStoredValue rows) = rows ∧
    ∀ v : JSValue,
      (jget v "amostra" = .jundefined ∨ jget v "amostra" = .jstr "-") →
      sanitizeStoredRow v = none :=
  ⟨loadRows_stored hv, sanitize_missing_code⟩

/-- Witness for the C5 theorem at a concrete one-row history and a concrete
codeless stored entry. -/
theorem persist_load_roundtrip_witness :
    (∀ r ∈ [rowA1v2], ValidRow r) ∧
    loadRows (historyToStoredValue [rowA1v2]) = [rowA1v2] ∧
    sanitizeStoredRow (.jobj [("status", .jstr "ok")]) = none := by
  have hv : ∀ r ∈ [rowA1v2], ValidRow r := by
    intro r hr
    rw [List.mem_singleton] at hr
    subst hr
    exact ⟨by decide, by decide⟩
  exact ⟨hv, (persist_load_roundtrip [rowA1v2] hv).1,
    (persist_load_roundtrip [rowA1v2] hv).2 _ (Or.inl rfl)⟩

/-- Single-pass specification scanner for cell sanitization: each line feed
(together with an immediately preceding carriage return) and each tab becomes
one space; every other character — including a carriage return not followed
by a line feed — is preserved. -/
def sanScan : List Char → List Char
  | [] => []
  | '\r' :: '\n' :: rest => ' ' :: sanScan rest
  | '\n' :: rest => ' ' :: sanScan rest
  | '\t' :: rest => ' ' :: sanScan rest
  | c :: rest => c :: sanScan rest

theorem replace_passes_eq_sanScan : ∀ l, replaceTabs (replaceNL l) = sanScan l := by
  intro l
  induction l using sanScan.induct with
  | case1 => rfl
  | case2 rest ih => simp [replaceNL, replaceTabs, sanScan] at ih ⊢; exact ih
  | case3 rest ih => simp_all [replaceNL, replaceTabs, sanScan]
  | case4 rest ih => simp_all [replaceNL, replaceTabs, sanScan]
  | case5 c rest h1 h2 h3 ih => simp_all [replaceNL, replaceTabs, sanScan]

/-- Claim C8, counterexample: the export text for one concrete row does not
end in CRLF (`join` adds no trailing delimiter), and a carriage return not
followed by a line feed inside a cell survives sanitization — refuting both
the claimed CRLF termination of the block and the blanket CR replacement. -/
theorem export_format_cex :
    endsWithCRLF (buildExportText [rowA1]) = false ∧
    sanitizeCellValue "a\rb" = "a\rb" :=
  ⟨by decide, by decide⟩

/-- Claim C8 (amended): the export text is the sanitized tab-joined header
line followed by one sanitized tab-joined line per row, lines joined by CRLF
with no trailing CRLF terminator; sanitization rewrites each line feed
(together with an immediately preceding carriage return) and each tab to a
single space and then trims, while a carriage return not followed by a line
feed is preserved. -/
theorem buildExportText_format :
    (∀ (r : AmostraRow) (rs : List AmostraRow),
        buildExportText (r :: rs) =
          exportHeaderLine ++ "\r\n" ++ jsJoin "\r\n" ((r :: rs).map exportRowLine)) ∧
    (∀ raw : String, sanitizeCellValue raw = jsTrim (String.mk (sanScan raw.data))) := by
  constructor
  · intro r rs
    rw [buildExportText, List.map_cons]
    rfl
  · intro raw
    rw [sanitizeCellValue, replace_passes_eq_sanScan]

theorem validRow_mkCodeRow (i : Nat) : ValidRow (mkCodeRow i) := by
  constructor
  · intro s hs
    simp only [rowFields, mkCodeRow, List.mem_cons, List.not_mem_nil, or_false] at hs
    rcases hs with rfl | rfl | rfl | rfl | rfl | rfl | rfl | rfl | rfl | rfl
    case _ =>
      refine ⟨str_ne_empty_of_data (by simp), ?_⟩
      show String.mk (trimL (List.replicate (i + 1) 'a')) = String.mk (List.replicate (i + 1) 'a')
      rw [trimL_eq_self_of_all]
      intro c hc
      rw [List.eq_of_mem_replicate hc]
      decide
    all_goals exact ⟨by decide, by decide⟩
  · intro he
    have hd : List.replicate (i + 1) 'a' = ['-'] := congrArg String.data he
    rw [List.replicate_succ] at hd
    simp at hd

/-- A stored snapshot holding the same valid row twice. -/
def dupSnapshot : JSValue := .jarr [rowToJSON rowA1v2, rowToJSON rowA1v2]

/-- 101 valid rows with pairwise distinct codes. -/
def bigRows : List AmostraRow := (List.range 101).map mkCodeRow

/-- A stored snapshot holding one more row than the in-memory capacity. -/
def bigSnapshot : JSValue := historyToStoredValue bigRows

theorem filterMap_id_map {α β : Type} (f : α → Option β) (l : List α) :
    (l.map f).filterMap id = l.filterMap f := by
  induction l with
  | nil => rfl
  | cons a t ih => cases h : f a <;> simp [List.filterMap_cons, h, ih]

/-- Claim C10: loading re-establishes no history invariant beyond per-row
validity — the in-memory history is exactly the order-preserving list of
surviving sanitized records; a snapshot with a duplicated code yields both
copies, and a snapshot with `HISTORY_LIMIT + 1` entries is loaded in full
with no truncation. -/
theorem load_no_dedup_no_truncation :
    (∀ xs : List JSValue, loadRows (.jarr xs) = xs.filterMap sanitizeStoredRow) ∧
    (loadRows dupSnapshot).countP (fun r => r.amostra == rowA1v2.amostra) = 2 ∧
    (loadRows bigSnapshot).length = HISTORY_LIMIT + 1 := by
  refine ⟨fun xs => filterMap_id_map sanitizeStoredRow xs, by decide, ?_⟩
  have hv : ∀ r ∈ bigRows, ValidRow r := by
    intro r hr
    rw [bigRows] at hr
    rcases List.mem_map.mp hr with ⟨i, _, rfl⟩
    exact validRow_mkCodeRow i
  rw [bigSnapshot, loadRows_stored hv, bigRows]
  simp [HISTORY_LIMIT]
